import Mathlib

/-!
Verification of the bondhome-mqtt push-notification client (package
bondhome, file bpup.go) and of the REST client's GetDeviceIDs, as a
shallow embedding in Lean.

Conventions of the embedding:
* time is measured in whole seconds (Nat);
* a UDP payload is a list of byte values (Nat); the single line-feed
  byte written by conn.Write of a newline string is the list [10];
* the environment of a run (whether each conn.Write succeeds, whether
  the context is cancelled during a wait) is an explicit trace argument,
  consumed one element per send attempt.
-/

namespace BondHome

/-- Outcome of one send attempt in the keepalive retry loop, together
with what happens during the backoff wait that follows a failure.
One element of the trace is consumed per call of conn.Write inside
sendKeepAlive. -/
inductive Step where
  /-- conn.Write returns without error. -/
  | sendOk
  /-- conn.Write fails; if a backoff wait follows, the backoff timer
  fires first (the context is not cancelled during the wait). -/
  | sendFailWait
  /-- conn.Write fails; if a backoff wait follows, ctx.Done fires
  during the wait (the select takes the cancellation branch). -/
  | sendFailCancel
deriving DecidableEq

/-- How a run of sendKeepAlive ends.  In the Go source the fatal case
is a re-panic out of the recover handler (bpup.go line 100), which
unwinds the keepalive goroutine; the cancelled case is the plain
return in the ctx.Done branch of the select (line 96). -/
inductive KAOutcome where
  /-- a send attempt succeeded and the function returned normally. -/
  | success
  /-- the context was cancelled during a backoff wait; the function
  returned silently. -/
  | cancelled
  /-- the retry budget was exhausted: panic(r) re-raises the original
  send error, unwinding the goroutine. -/
  | fatal
deriving DecidableEq

/-- Observable effects of one run of sendKeepAlive.  The two Boolean
fields record which side effects the function performs on the session:
the Go source of sendKeepAlive (bpup.go lines 87-108) contains no call
to a context CancelFunc (the client never even holds one) and no call
to conn.Close, so neither effect ever occurs. -/
structure KeepAliveEffects where
  /-- payloads passed to conn.Write, one per send attempt. -/
  writes : List (List Nat)
  /-- backoff waits actually performed, in order, in seconds. -/
  delays : List Nat
  outcome : KAOutcome
  /-- whether the run raises the session's cancellation signal. -/
  raisesCancellation : Bool
  /-- whether the run closes the UDP connection. -/
  closesConnection : Bool
deriving DecidableEq

/-- Shallow embedding of sendKeepAlive (bpup.go lines 87-108).
Arguments beyond the trace are the backoff and elapsed parameters of
the Go function, in seconds.  Each send attempt writes the single
line-feed byte.  On failure, if elapsed + backoff is at most 120 the
function waits backoff seconds (unless the context is cancelled during
the wait) and retries with backoff doubled and the wait added to
elapsed; otherwise it re-panics.  An exhausted trace stands for an
environment in which the next send succeeds. -/
def sendKeepAlive : List Step → Nat → Nat → KeepAliveEffects
  | [], _, _ => ⟨[[10]], [], KAOutcome.success, false, false⟩
  | Step.sendOk :: _, _, _ => ⟨[[10]], [], KAOutcome.success, false, false⟩
  | Step.sendFailWait :: rest, backoff, elapsed =>
      if elapsed + backoff ≤ 120 then
        let r := sendKeepAlive rest (2 * backoff) (elapsed + backoff)
        ⟨[10] :: r.writes, backoff :: r.delays, r.outcome,
          r.raisesCancellation, r.closesConnection⟩
      else
        ⟨[[10]], [], KAOutcome.fatal, false, false⟩
  | Step.sendFailCancel :: _, backoff, elapsed =>
      if elapsed + backoff ≤ 120 then
        ⟨[[10]], [], KAOutcome.cancelled, false, false⟩
      else
        ⟨[[10]], [], KAOutcome.fatal, false, false⟩

/-- Result of the initial conn.Write of the handshake probe. -/
inductive WriteRes where
  | ok
  | err
deriving DecidableEq

/-- Result of the single conn.ReadFrom of the handshake reply.  Go
reports an elapsed read deadline as an error from ReadFrom, so both
the timeout and any other transport error take the same error branch
in StartListening; they are kept separate here because the spec names
them separately. -/
inductive ReadRes where
  /-- a datagram with the given bytes arrived before the deadline. -/
  | data (bytes : List Nat)
  /-- the 5-second read deadline elapsed with no datagram. -/
  | timeout
  /-- ReadFrom failed with some other transport error. -/
  | transportErr
deriving DecidableEq

/-- Observable effects of one call of StartListening. -/
structure StartEffects where
  /-- payloads passed to conn.Write before returning. -/
  writes : List (List Nat)
  /-- the read deadline set on the connection, if any (absolute time). -/
  readDeadline : Option Nat
  /-- whether StartListening returned a nil error. -/
  ok : Bool
  /-- whether the keepalive goroutine was started. -/
  keepAliveArmed : Bool
deriving DecidableEq

/-- Shallow embedding of StartListening (bpup.go lines 59-85): write
the single line-feed byte; on write error return the error at once.
Otherwise set the read deadline to now + 5 seconds, perform one read;
on read error (deadline elapsed or transport failure) return the
error; otherwise start the keepalive goroutine and return nil.  The
reply bytes are only logged, never inspected. -/
def startListening (now : Nat) (w : WriteRes) (r : ReadRes) : StartEffects :=
  match w with
  | WriteRes.err => ⟨[[10]], none, false, false⟩
  | WriteRes.ok =>
      match r with
      | ReadRes.data _ => ⟨[[10]], some (now + 5), true, true⟩
      | ReadRes.timeout => ⟨[[10]], some (now + 5), false, false⟩
      | ReadRes.transportErr => ⟨[[10]], some (now + 5), false, false⟩

/-- One iteration of the keepalive goroutine's select loop: either the
60-second timer fires (and sendKeepAlive runs against the given trace)
or ctx.Done fires first and the goroutine returns. -/
inductive LoopEvent where
  | tick (trace : List Step)
  | cancel

/-- Shallow embedding of the keepalive goroutine started by
StartListening (bpup.go lines 73-82).  The first argument is the time
the loop iteration starts; each emission is the absolute time the tick
fires paired with the payloads sendKeepAlive writes.  A successful
sendKeepAlive takes the sum of its backoff waits of wall time; a
cancelled one means ctx.Done is closed, so the next select exits the
loop; a fatal one unwinds the goroutine by panic. -/
def listenLoop (t : Nat) : List LoopEvent → List (Nat × List (List Nat))
  | [] => []
  | LoopEvent.cancel :: _ => []
  | LoopEvent.tick tr :: rest =>
      let r := sendKeepAlive tr 1 0
      (t + 60, r.writes) ::
        match r.outcome with
        | KAOutcome.success => listenLoop (t + 60 + r.delays.sum) rest
        | KAOutcome.cancelled => []
        | KAOutcome.fatal => []

/-- Observable effects of one Receive call. -/
structure ReceiveEffects where
  /-- the read deadline set on the connection (absolute time). -/
  readDeadline : Nat
  /-- number of datagram reads performed. -/
  reads : Nat
  /-- absolute time at which the call returns. -/
  returnTime : Nat
  /-- whether the call returned a timeout error. -/
  timedOut : Bool
  /-- raw bytes of the datagram, when one arrived in time. -/
  payload : Option (List Nat)
deriving DecidableEq

/-- Modelled from the spec: the Receive method of the push client is
not present under src (only its callers in main.go and its test in the
unnamed test file exercise it); modelled from the receive contract of
the spec, which sets a read deadline on the transport equal to now +
timeout, performs exactly one datagram read, and returns a timeout
error when no datagram arrives within the timeout, after exactly the
timeout has elapsed.  The environment argument gives the absolute
arrival time and bytes of the next inbound datagram, if any. -/
def receive (now d : Nat) (arrival : Option (Nat × List Nat)) :
    ReceiveEffects :=
  match arrival with
  | some a =>
      if a.fst ≤ now + d then
        ⟨now + d, 1, a.fst, false, some a.snd⟩
      else
        ⟨now + d, 1, now + d, true, none⟩
  | none => ⟨now + d, 1, now + d, true, none⟩

/-- JSON-shaped values, as produced by Go's encoding/json.  Numbers
are restricted to integers, which covers every field the wire format
uses. -/
inductive Json where
  | null
  | bool (b : Bool)
  | num (n : Int)
  | str (s : String)
  | arr (xs : List Json)
  | obj (fields : List (String × Json))

/-- Result of one GetDeviceIDs call.  The panicked case models a Go
runtime panic, from which the call never returns. -/
inductive GetResult where
  | ok (ids : List String)
  | error (msg : String)
  | panicked
deriving DecidableEq

/-- Shallow embedding of GetDeviceIDs (lines 203-236 of the
concatenated bondhome source): after a 2xx status check, unmarshal the
response body into a map (which succeeds exactly on a JSON object or
on null, null yielding the nil map), then allocate the id slice with
capacity len(responseObject) - 1.  When the decoded map is empty that
capacity is -1 and make panics at runtime (makeslice: cap out of
range), so the call never returns; otherwise every top-level key other
than the underscore key is collected. -/
def getDeviceIDs (status : Nat) (body : Json) : GetResult :=
  if 200 ≤ status ∧ status < 300 then
    match body with
    | Json.obj [] => GetResult.panicked
    | Json.obj fields =>
        GetResult.ok ((fields.map Prod.fst).filter (fun k => k ≠ "_"))
    | Json.null => GetResult.panicked
    | _ => GetResult.error "error unmarshaling JSON from response body"
  else
    GetResult.error "expected 2xx response"

/-- The first doubling delays, starting at one second. -/
def doublingDelays (k : Nat) : List Nat :=
  (List.range k).map (fun i => 2 ^ i)

lemma sendKeepAlive_sevenFails (rest : List Step) :
    sendKeepAlive
        (Step.sendFailWait :: Step.sendFailWait :: Step.sendFailWait ::
          Step.sendFailWait :: Step.sendFailWait :: Step.sendFailWait ::
          Step.sendFailWait :: rest) 1 0 =
      ⟨List.replicate 7 [10], [1, 2, 4, 8, 16, 32], KAOutcome.fatal,
        false, false⟩ := by
  simp [sendKeepAlive, List.replicate]

lemma sendKeepAlive_noSideEffects (trace : List Step) (b e : Nat) :
    (sendKeepAlive trace b e).raisesCancellation = false ∧
      (sendKeepAlive trace b e).closesConnection = false := by
  induction trace generalizing b e with
  | nil => simp [sendKeepAlive]
  | cons s rest ih =>
      cases s with
      | sendOk => simp [sendKeepAlive]
      | sendFailCancel =>
          simp only [sendKeepAlive]
          split <;> simp
      | sendFailWait =>
          simp only [sendKeepAlive]
          split
          · exact ih (2 * b) (e + b)
          · simp

lemma sendKeepAlive_delays_length_le (trace : List Step) (k : Nat) :
    ((sendKeepAlive trace (2 ^ k) (2 ^ k - 1)).delays).length ≤ 6 - k := by
  induction trace generalizing k with
  | nil => simp [sendKeepAlive]
  | cons s rest ih =>
      have hpow : 1 ≤ 2 ^ k := Nat.one_le_two_pow
      have hsucc : 2 ^ (k + 1) = 2 * 2 ^ k := by
        rw [pow_succ]; ring
      cases s with
      | sendOk => simp [sendKeepAlive]
      | sendFailCancel =>
          simp only [sendKeepAlive]
          split <;> simp
      | sendFailWait =>
          simp only [sendKeepAlive]
          split
          · rename Nat.sub (2 ^ k) 1 + 2 ^ k ≤ 120 => hle
            have hk : k ≤ 5 := by
              by_contra hgt
              have h6 : 6 ≤ k := by omega
              have : 2 ^ 6 ≤ 2 ^ k := Nat.pow_le_pow_right (by omega) h6
              omega
            have harg : 2 ^ k - 1 + 2 ^ k = 2 ^ (k + 1) - 1 := by omega
            have harg2 : 2 * 2 ^ k = 2 ^ (k + 1) := hsucc.symm
            rw [harg, harg2]
            have := ih (k + 1)
            simp only [List.length_cons]
            omega
          · simp

lemma sendKeepAlive_allFail_le6 (n : Nat) (hn : n ≤ 6) :
    sendKeepAlive (List.replicate n Step.sendFailWait) 1 0 =
      ⟨List.replicate (n + 1) [10], doublingDelays n, KAOutcome.success,
        false, false⟩ := by
  interval_cases n <;> decide

lemma replicate_seven_add (m : Nat) :
    List.replicate (7 + m) Step.sendFailWait =
      Step.sendFailWait :: Step.sendFailWait :: Step.sendFailWait ::
        Step.sendFailWait :: Step.sendFailWait :: Step.sendFailWait ::
        Step.sendFailWait :: List.replicate m Step.sendFailWait := by
  rw [List.replicate_add]
  rfl

lemma sendKeepAlive_allFail_ge7 (n : Nat) (hn : 7 ≤ n) :
    sendKeepAlive (List.replicate n Step.sendFailWait) 1 0 =
      ⟨List.replicate 7 [10], [1, 2, 4, 8, 16, 32], KAOutcome.fatal,
        false, false⟩ := by
  obtain ⟨m, rfl⟩ : ∃ m, n = 7 + m := ⟨n - 7, by omega⟩
  rw [replicate_seven_add, sendKeepAlive_sevenFails]

/-- Claim C1: for every run of the keepalive recovery sequence started
after a failed periodic send (initial backoff 1 second, elapsed 0),
the retry delays form the doubling sequence 1, 2, 4, 8, ... seconds,
and the sequence is abandoned as fatal exactly when the accumulated
elapsed time plus the next delay would exceed the 120-second budget,
not before: on n consecutive send failures the performed delays are
the first min n 6 doubling delays, the outcome is fatal exactly when a
seventh attempt fails, every earlier stage still satisfied the budget
check, and the stage reached after six waits is the first to violate
it. -/
theorem claim_C1 (n : Nat) :
    (sendKeepAlive (List.replicate n Step.sendFailWait) 1 0).delays
        = doublingDelays (min n 6)
  ∧ ((sendKeepAlive (List.replicate n Step.sendFailWait) 1 0).outcome
        = KAOutcome.fatal ↔ 7 ≤ n)
  ∧ (∀ k < 6, (doublingDelays k).sum + 2 ^ k ≤ 120)
  ∧ 120 < (doublingDelays 6).sum + 2 ^ 6 := by
  refine ⟨?_, ?_, by decide, by decide⟩
  · by_cases h : n ≤ 6
    · rw [sendKeepAlive_allFail_le6 n h]
      simp [Nat.min_eq_left h]
    · have h7 : 7 ≤ n := by omega
      rw [sendKeepAlive_allFail_ge7 n h7]
      have hm : min n 6 = 6 := by omega
      rw [hm]
      decide
  · by_cases h : n ≤ 6
    · rw [sendKeepAlive_allFail_le6 n h]
      simp only
      constructor
      · intro hc
        exact absurd hc (by decide)
      · intro h7
        omega
    · have h7 : 7 ≤ n := by omega
      rw [sendKeepAlive_allFail_ge7 n h7]
      simp [h7]

/-- Claim C1 witness: at seven consecutive failures the run is fatal,
and the six stages before never exceed the budget. -/
theorem claim_C1_witness :
    (sendKeepAlive (List.replicate 7 Step.sendFailWait) 1 0).outcome
      = KAOutcome.fatal :=
  (claim_C1 7).2.1.mpr (by decide)

/-- Claim C2 counterexample: on the run in which every retry up to the
120-second budget fails, the exhausted sequence ends in the fatal
outcome (a re-panic unwinding the keepalive goroutine), and the run
does not raise the cancellation signal and does not close the
connection, so the fatal failure is not surfaced through the
cancellation/termination path as the claim states. -/
theorem claim_C2_counterexample :
    (sendKeepAlive (List.replicate 7 Step.sendFailWait) 1 0).outcome
        = KAOutcome.fatal
  ∧ (sendKeepAlive (List.replicate 7 Step.sendFailWait) 1 0).raisesCancellation
        = false
  ∧ (sendKeepAlive (List.replicate 7 Step.sendFailWait) 1 0).closesConnection
        = false := by decide

/-- Claim C2 amended: when the keepalive retry budget is exhausted the
failure is surfaced by re-raising the original send error as a panic
out of the keepalive goroutine; no run of sendKeepAlive ever raises
the cancellation signal or closes the connection, and exhaustion
(seven or more consecutive failures) always ends in the panic
outcome. -/
theorem claim_C2_amended (trace : List Step) (b e m : Nat) :
    (sendKeepAlive trace b e).raisesCancellation = false
  ∧ (sendKeepAlive trace b e).closesConnection = false
  ∧ (sendKeepAlive (List.replicate (7 + m) Step.sendFailWait) 1 0).outcome
      = KAOutcome.fatal := by
  refine ⟨(sendKeepAlive_noSideEffects trace b e).1,
          (sendKeepAlive_noSideEffects trace b e).2, ?_⟩
  rw [sendKeepAlive_allFail_ge7 (7 + m) (by omega)]

/-- Claim C3: StartListening writes exactly one single-byte line-feed
probe in every case; when the probe write succeeds it sets a read
deadline of now + 5 seconds and performs one read; a reply datagram
makes it return success and arm the keepalive scheduler, while a
failed probe write, an elapsed read deadline, or a transport error
makes it return an error without arming the scheduler, and the
scheduler is armed exactly when the call succeeds. -/
theorem claim_C3 (now : Nat) (bytes : List Nat) (w : WriteRes) (r : ReadRes) :
    (startListening now w r).writes = [[10]]
  ∧ startListening now WriteRes.ok (ReadRes.data bytes)
      = ⟨[[10]], some (now + 5), true, true⟩
  ∧ startListening now WriteRes.err r = ⟨[[10]], none, false, false⟩
  ∧ startListening now WriteRes.ok ReadRes.timeout
      = ⟨[[10]], some (now + 5), false, false⟩
  ∧ startListening now WriteRes.ok ReadRes.transportErr
      = ⟨[[10]], some (now + 5), false, false⟩
  ∧ (startListening now w r).keepAliveArmed = (startListening now w r).ok := by
  cases w <;> cases r <;> exact ⟨rfl, rfl, rfl, rfl, rfl, rfl⟩

/-- Claim C4: Receive sets a read deadline equal to now + d, performs
exactly one datagram read, and when no datagram arrives within d
(none at all, or only after the deadline) it returns a timeout error
at exactly time now + d, so at least d and no more than d elapses.
Modelled from the spec, since the Receive implementation is not under
src. -/
theorem claim_C4 (now d ta : Nat) (bytes : List Nat)
    (arrival : Option (Nat × List Nat)) :
    (receive now d arrival).readDeadline = now + d
  ∧ (receive now d arrival).reads = 1
  ∧ (receive now d none).timedOut = true
  ∧ (receive now d none).returnTime = now + d
  ∧ (now + d < ta →
      (receive now d (some (ta, bytes))).timedOut = true
      ∧ (receive now d (some (ta, bytes))).returnTime = now + d) := by
  refine ⟨?_, ?_, rfl, rfl, ?_⟩
  · cases arrival with
    | none => rfl
    | some a =>
        simp only [receive]
        split <;> rfl
  · cases arrival with
    | none => rfl
    | some a =>
        simp only [receive]
        split <;> rfl
  · intro h
    have hlt : ¬ ta ≤ now + d := by omega
    constructor <;> simp [receive, hlt]

/-- Claim C4 witness: a datagram arriving after the deadline yields a
timeout returned exactly at the deadline. -/
theorem claim_C4_witness :
    0 + 3 < 5
  ∧ (receive 0 3 (some (5, [1]))).timedOut = true
  ∧ (receive 0 3 (some (5, [1]))).returnTime = 0 + 3 :=
  ⟨by decide, (claim_C4 0 3 5 [1] none).2.2.2.2 (by decide)⟩

/-- Claim C6: if the cancellation signal is raised while a keepalive
retry wait is pending, the retry sequence exits with the cancelled
outcome, never the fatal one: after any number k of failed retries at
which a further wait is still within budget (k at most 5), a failure
whose wait is interrupted by cancellation ends the run as cancelled,
not fatal. -/
theorem claim_C6 (k : Nat) (h : k ≤ 5) :
    (sendKeepAlive
        (List.replicate k Step.sendFailWait ++ [Step.sendFailCancel])
        1 0).outcome
      = KAOutcome.cancelled
  ∧ (sendKeepAlive
        (List.replicate k Step.sendFailWait ++ [Step.sendFailCancel])
        1 0).outcome
      ≠ KAOutcome.fatal := by
  interval_cases k <;> exact ⟨by decide, by decide⟩

/-- Claim C6 witness: cancellation during the third retry wait ends the
run as a normal shutdown. -/
theorem claim_C6_witness :
    2 ≤ 5
  ∧ (sendKeepAlive
        (List.replicate 2 Step.sendFailWait ++ [Step.sendFailCancel])
        1 0).outcome
      = KAOutcome.cancelled :=
  ⟨by decide, (claim_C6 2 (by decide)).1⟩

/-- Claim C7: the outcome of StartListening does not depend on the
content of the handshake reply: any two runs that each receive some
reply before the deadline have identical effects, and both succeed. -/
theorem claim_C7 (now : Nat) (b1 b2 : List Nat) :
    startListening now WriteRes.ok (ReadRes.data b1)
        = startListening now WriteRes.ok (ReadRes.data b2)
  ∧ (startListening now WriteRes.ok (ReadRes.data b1)).ok = true :=
  ⟨rfl, rfl⟩

/-- Claim C8: once armed, the keepalive goroutine sends a probe of
exactly one line-feed byte on a fixed 60-second period until the
cancellation signal is raised: over n periods in which each send
succeeds, followed by cancellation, the emissions are exactly one
single-byte write at each of the times start + 60, start + 120, ...,
start + n * 60, and nothing after the cancellation. -/
theorem claim_C8 (n t : Nat) :
    listenLoop t
        (List.replicate n (LoopEvent.tick [Step.sendOk]) ++ [LoopEvent.cancel])
      = (List.range n).map (fun i => (t + (i + 1) * 60, [[10]])) := by
  induction n generalizing t with
  | zero => simp [listenLoop]
  | succ n ih =>
      have step :
          listenLoop t
              (LoopEvent.tick [Step.sendOk] ::
                (List.replicate n (LoopEvent.tick [Step.sendOk])
                  ++ [LoopEvent.cancel]))
            = (t + 60, [[10]]) ::
                listenLoop (t + 60)
                  (List.replicate n (LoopEvent.tick [Step.sendOk])
                    ++ [LoopEvent.cancel]) := by
        simp [listenLoop, sendKeepAlive]
      rw [List.replicate_succ, List.cons_append, step, ih (t + 60),
        List.range_succ_eq_map, List.map_cons, List.map_map]
      congr 1
      apply List.map_congr_left
      intro i hi
      have harith : t + 60 + (i + 1) * 60 = t + (i + 1 + 1) * 60 := by ring
      simp [Function.comp, harith]

/-- Claim C9: the keepalive retry recursion started with backoff 1 and
elapsed 0 terminates: no run performs more than 6 retry waits, and if
every send fails the waits are exactly 1, 2, 4, 8, 16 and 32 seconds,
totalling 63 seconds, after which the budget check fails and the
sequence is abandoned as fatal. -/
theorem claim_C9 :
    (∀ trace, ((sendKeepAlive trace 1 0).delays).length ≤ 6)
  ∧ (sendKeepAlive (List.replicate 7 Step.sendFailWait) 1 0).delays
      = [1, 2, 4, 8, 16, 32]
  ∧ (sendKeepAlive (List.replicate 7 Step.sendFailWait) 1 0).outcome
      = KAOutcome.fatal
  ∧ ([1, 2, 4, 8, 16, 32] : List Nat).sum = 63 := by
  refine ⟨?_, by decide, by decide, by decide⟩
  intro trace
  have h := sendKeepAlive_delays_length_le trace 0
  simpa using h

/-- Claim C10 counterexample: a successful (2xx) call whose response
body is the empty JSON object does not return the list of its
non-underscore keys (the empty list), as the claim would have for
every JSON object body: the slice allocation with capacity
len(responseObject) - 1 panics there (capacity -1), and the call never
returns. -/
theorem claim_C10_counterexample :
    getDeviceIDs 200 (Json.obj []) = GetResult.panicked
  ∧ getDeviceIDs 200 (Json.obj []) ≠ GetResult.ok [] := by decide

/-- Claim C10 amended: a successful GetDeviceIDs call whose response
body is a nonempty JSON object returns exactly the top-level keys of
that object other than the underscore key, each exactly once, and
never returns the underscore key; on the empty object (or a null
body, which also decodes to an empty map) the call panics in the
slice allocation with capacity len - 1 instead of returning. -/
theorem claim_C10 (status : Nat) (fields : List (String × Json))
    (h2 : 200 ≤ status ∧ status < 300)
    (hne : fields ≠ [])
    (hnd : (fields.map Prod.fst).Nodup) :
    getDeviceIDs status (Json.obj fields)
        = GetResult.ok ((fields.map Prod.fst).filter (fun k => k ≠ "_"))
  ∧ (∀ k, k ∈ (fields.map Prod.fst).filter (fun k => k ≠ "_")
        ↔ (k ∈ fields.map Prod.fst ∧ k ≠ "_"))
  ∧ ((fields.map Prod.fst).filter (fun k => k ≠ "_")).Nodup
  ∧ "_" ∉ (fields.map Prod.fst).filter (fun k => k ≠ "_")
  ∧ getDeviceIDs status (Json.obj []) = GetResult.panicked
  ∧ getDeviceIDs status Json.null = GetResult.panicked := by
  refine ⟨?_, ?_, hnd.filter _, ?_, ?_, ?_⟩
  · cases fields with
    | nil => exact absurd rfl hne
    | cons hd tl =>
        simp only [getDeviceIDs]
        rw [if_pos h2]
  · intro k
    simp [List.mem_filter]
  · simp [List.mem_filter]
  · simp only [getDeviceIDs]
    rw [if_pos h2]
  · simp only [getDeviceIDs]
    rw [if_pos h2]

/-- Claim C10 witness: a 200 response whose body has keys a and the
underscore yields exactly the key a. -/
theorem claim_C10_witness :
    (200 ≤ 200 ∧ 200 < 300)
  ∧ ([(("a" : String), Json.null), ("_", Json.null)]
      ≠ ([] : List (String × Json)))
  ∧ getDeviceIDs 200 (Json.obj [("a", Json.null), ("_", Json.null)])
      = GetResult.ok ["a"] :=
  ⟨by decide, List.cons_ne_nil _ _, by
    rw [(claim_C10 200 [("a", Json.null), ("_", Json.null)]
      (by decide) (List.cons_ne_nil _ _) (by decide)).1]
    rfl⟩

end BondHome
